import Mathlib

/-!
Verification development for the Library Management System backend
(`src/backend/server.py`).  The definitions below are a shallow embedding of
the lending ledger and analytics code: book and loan records, the borrow /
return / overdue-sweep / book-update operations, and the heuristic scoring
endpoints (recommendations, overdue-risk predictions).

Modelling conventions:
* Timestamps are integers (seconds); `timedelta(days = d)` is `d * 86400`.
  Python's `timedelta.days` floors towards negative infinity, which is
  `Int.fdiv _ 86400`.
* Monetary amounts and scores are rationals; the float literals `0.5`, `0.2`,
  `0.7`, ... of the source become `1/2`, `1/5`, `7/10`, ...
* MongoDB `find_one` / `update_one` act on the first matching document of a
  list, modelled by `List.find?` and `update_first`.
* Presentational fields that no claim mentions (isbn, description,
  publication year, user names in enriched responses) are omitted.
-/

/-- Loan lifecycle status (`BorrowRecord.status` in the source:
"borrowed", "overdue", "returned"). -/
inductive LoanStatus where
  | borrowed
  | overdue
  | returned
deriving DecidableEq

/-- Embedding of `BorrowRecord` (src/backend/server.py lines 103-111). -/
structure Loan where
  id : Nat
  user_id : Nat
  book_id : Nat
  borrowed_at : Int
  due_date : Int
  returned_at : Option Int
  status : LoanStatus
  fine_amount : ℚ
deriving DecidableEq

/-- Embedding of `Book` (src/backend/server.py lines 69-80), restricted to the
fields the lending ledger and scoring code read. -/
structure Book where
  id : Nat
  title : String
  author : String
  genre : String
  tags : List String
  total_copies : Int
  available_copies : Int
  created_at : Int
deriving DecidableEq

/-- The mutable store: the `books` and `borrows` MongoDB collections. -/
structure LibState where
  books : List Book
  borrows : List Loan
deriving DecidableEq

/-- Embedding of `BookUpdate` (src/backend/server.py lines 92-100): every field
is optional; note that `available_copies` is not updatable. -/
structure BookUpdate where
  title : Option String := none
  author : Option String := none
  genre : Option String := none
  tags : Option (List String) := none
  total_copies : Option Int := none
deriving DecidableEq

/-- Default of `BorrowRequest.borrow_days` (src/backend/server.py line 115). -/
def borrow_days_default : Int := 14

/-- Errors raised by `borrow_book` (HTTP 404 / 400 / 400 in the source). -/
inductive BorrowError where
  | bookNotFound
  | notAvailable
  | alreadyBorrowed
deriving DecidableEq

/-- Errors raised by `return_book` (HTTP 404 / 403 / 400 in the source). -/
inductive ReturnError where
  | recordNotFound
  | notAuthorized
  | alreadyReturned
deriving DecidableEq

/-- Error raised by `update_book` (HTTP 404 in the source). -/
inductive UpdateError where
  | bookNotFound
deriving DecidableEq

/-- Mongo `update_one`: rewrite the first element satisfying `p` with `f`,
leave everything else unchanged. -/
def update_first (p : α → Bool) (f : α → α) : List α → List α
  | [] => []
  | x :: xs => if p x then f x :: xs else x :: update_first p f xs

/-- Python `timedelta.days`: the number of whole days in `d` seconds, floored
towards negative infinity. -/
def timedeltaDays (d : Int) : Int := d.fdiv 86400

/-- Number of loans on book `bid` whose status is `borrowed` or `overdue`. -/
def activeLoanCount (borrows : List Loan) (bid : Nat) : Nat :=
  borrows.countP fun l =>
    l.book_id == bid && (decide (l.status = .borrowed) || decide (l.status = .overdue))

/-- Number of active (`borrowed` or `overdue`) loans held by user `uid` on
book `bid`. -/
def activePairCount (borrows : List Loan) (uid bid : Nat) : Nat :=
  borrows.countP fun l =>
    l.user_id == uid && l.book_id == bid &&
      (decide (l.status = .borrowed) || decide (l.status = .overdue))

/-- The availability invariant of the spec: for every book,
`0 ≤ available_copies ≤ total_copies` and `available_copies` equals
`total_copies` minus the number of active loans on the book. -/
def availabilityInvariant (s : LibState) : Prop :=
  ∀ b ∈ s.books, 0 ≤ b.available_copies ∧ b.available_copies ≤ b.total_copies ∧
    b.available_copies = b.total_copies - (activeLoanCount s.borrows b.id : ℤ)

/-- Embedding of `borrow_book` (src/backend/server.py lines 305-348).
`new_id` stands for the freshly generated `uuid4` of the borrow record, `now`
for `datetime.utcnow()`.  The user-collection update (`current_borrowings`)
is presentational and omitted. -/
def borrow_book (s : LibState) (uid bid : Nat) (borrow_days : Int) (now : Int)
    (new_id : Nat) : Except BorrowError (Loan × LibState) :=
  match s.books.find? (fun b => b.id == bid) with
  | none => .error .bookNotFound
  | some book =>
    if book.available_copies ≤ 0 then .error .notAvailable
    else if (s.borrows.find? fun l =>
        l.user_id == uid && l.book_id == bid && decide (l.status = .borrowed)).isSome then
      .error .alreadyBorrowed
    else
      let loan : Loan :=
        { id := new_id, user_id := uid, book_id := bid, borrowed_at := now,
          due_date := now + borrow_days * 86400, returned_at := none,
          status := .borrowed, fine_amount := 0 }
      let books2 := update_first (fun b => b.id == bid)
        (fun b => { b with available_copies := b.available_copies - 1 }) s.books
      .ok (loan, { books := books2, borrows := s.borrows ++ [loan] })

/-- Embedding of `return_book` (src/backend/server.py lines 350-402).
`actor_id` / `actor_is_librarian` are the authenticated caller; `now` is
`datetime.utcnow()`.  The user-collection update (reading history) is
presentational and omitted. -/
def return_book (s : LibState) (borrow_id actor_id : Nat)
    (actor_is_librarian : Bool) (now : Int) : Except ReturnError (ℚ × LibState) :=
  match s.borrows.find? (fun l => l.id == borrow_id) with
  | none => .error .recordNotFound
  | some br =>
    if br.user_id ≠ actor_id ∧ actor_is_librarian = false then .error .notAuthorized
    else if br.status = .returned then .error .alreadyReturned
    else
      let fine : ℚ :=
        if br.due_date < now then (timedeltaDays (now - br.due_date) : ℚ) * 1 else 0
      let borrows2 := update_first (fun l => l.id == borrow_id)
        (fun l => { l with returned_at := some now, status := .returned,
                           fine_amount := fine }) s.borrows
      let books2 := update_first (fun b => b.id == br.book_id)
        (fun b => { b with available_copies := b.available_copies + 1 }) s.books
      .ok (fine, { books := books2, borrows := borrows2 })

/-- Embedding of `update_book` (src/backend/server.py lines 271-291): the
provided fields overwrite the stored ones, the omitted fields are kept. -/
def applyBookUpdate (u : BookUpdate) (b : Book) : Book :=
  { b with
    title := u.title.getD b.title,
    author := u.author.getD b.author,
    genre := u.genre.getD b.genre,
    tags := u.tags.getD b.tags,
    total_copies := u.total_copies.getD b.total_copies }

/-- Embedding of the `update_book` endpoint (src/backend/server.py
lines 271-291).  Note `available_copies` is never touched, even when
`total_copies` changes. -/
def update_book (s : LibState) (bid : Nat) (u : BookUpdate) :
    Except UpdateError LibState :=
  match s.books.find? (fun b => b.id == bid) with
  | none => .error .bookNotFound
  | some _ =>
    .ok { s with books := update_first (fun b => b.id == bid) (applyBookUpdate u) s.books }

/-- Selection predicate of the overdue sweep (src/backend/server.py
lines 433-436): status `borrowed` and due date strictly before `now`. -/
def overduePred (now : Int) (l : Loan) : Bool :=
  decide (l.status = .borrowed) && decide (l.due_date < now)

/-- The status mutation applied by the sweep to a selected loan. -/
def setOverdue (l : Loan) : Loan := { l with status := .overdue }

/-- An entry of the sweep's response (src/backend/server.py lines 445-463):
the pre-transition loan document spread into the response, enriched with
`overdue_days` and `calculated_fine` (the stored `fine_amount` is untouched). -/
structure OverdueEntry where
  loan : Loan
  overdue_days : Int
  calculated_fine : ℚ
deriving DecidableEq

/-- Embedding of the `get_overdue_books` endpoint, the overdue sweep
(src/backend/server.py lines 427-465): fetch all loans with status
`borrowed` and `due_date < now`, set each of their stored statuses to
`overdue` (an `update_one` by id per loan), and report the fetched
(pre-transition) records with a computed `overdue_days`/`calculated_fine`. -/
def get_overdue_books (s : LibState) (now : Int) : List OverdueEntry × LibState :=
  let overdue_borrows := s.borrows.filter (overduePred now)
  let borrows2 := overdue_borrows.foldl
    (fun acc b => update_first (fun l => l.id == b.id) setOverdue acc) s.borrows
  let entries := overdue_borrows.map fun b =>
    let od := timedeltaDays (now - b.due_date)
    { loan := b, overdue_days := od, calculated_fine := (od : ℚ) * 1 }
  (entries, { books := s.books, borrows := borrows2 })

/-- Python's stable `list.sort(key = ..., reverse = True)`: a stable insertion
sort that orders elements by descending key, equal keys keeping their original
relative order. -/
def sortDescBy [LinearOrder β] (key : α → β) (l : List α) : List α :=
  @List.insertionSort α (fun a b => key b ≤ key a)
    (fun a b => inferInstanceAs (Decidable (key b ≤ key a))) l

/-- Embedding of `BookRecommendation` (src/backend/server.py lines 121-126). -/
structure BookRecommendation where
  book_id : Nat
  title : String
  author : String
  similarity_score : ℚ
  reason : String
deriving DecidableEq

/-- Genres of the catalog books that appear in the user's reading history
(the set `user_genres` of src/backend/server.py lines 496-500, as a list whose
membership is the set membership). -/
def userGenres (reading_history : List Nat) (books : List Book) : List String :=
  (books.filter fun b => reading_history.contains b.id).map (fun b => b.genre)

/-- Union of the tags of the user's read books (the set `user_tags` of
src/backend/server.py lines 497-501, as a list whose membership is the set
membership). -/
def userTags (reading_history : List Nat) (books : List Book) : List String :=
  ((books.filter fun b => reading_history.contains b.id).map (fun b => b.tags)).flatten

/-- The distinct tags of `b` shared with the user's tags
(`common_tags = user_tags.intersection(book_tags)`, lines 517-518; the list
enumerates the set intersection, so its length is the set's cardinality). -/
def commonTags (reading_history : List Nat) (books : List Book) (b : Book) :
    List String :=
  b.tags.dedup.filter fun t => (userTags reading_history books).contains t

/-- The content-based score of src/backend/server.py lines 508-520:
`0.5` for a genre match plus `0.2` per common tag. -/
def recScore (reading_history : List Nat) (books : List Book) (b : Book) : ℚ :=
  (if (userGenres reading_history books).contains b.genre then 1/2 else 0) +
    (commonTags reading_history books b).length * (1/5)

/-- The candidate list of the non-empty-history branch of
`get_book_recommendations` (src/backend/server.py lines 503-531): every
catalog book outside the reading history, kept iff its score is positive,
in catalog order. -/
def candidateRecs (reading_history : List Nat) (books : List Book) :
    List BookRecommendation :=
  books.filterMap fun b =>
    if reading_history.contains b.id then none
    else
      let genreMatch := (userGenres reading_history books).contains b.genre
      let common := commonTags reading_history books b
      let score := recScore reading_history books b
      let reasons : List String :=
        (if genreMatch then ["Similar genre: " ++ b.genre] else []) ++
          (if common.isEmpty then []
           else ["Common tags: " ++ String.intercalate ", " (common.take 2)])
      if score > 0 then
        some { book_id := b.id, title := b.title, author := b.author,
               similarity_score := score,
               reason := if reasons.isEmpty then "Recommended for you"
                         else String.intercalate "; " reasons }
      else none

/-- Embedding of the `get_book_recommendations` endpoint
(src/backend/server.py lines 468-535).  With an empty reading history it
returns the `limit` most recently cataloged books at score `0.5`; otherwise
the positively scored candidates, sorted by descending score (stable), cut to
`limit`. -/
def get_book_recommendations (reading_history : List Nat) (books : List Book)
    (limit : Nat) : List BookRecommendation :=
  if reading_history.isEmpty then
    ((sortDescBy (fun b => b.created_at) books).take limit).map fun b =>
      { book_id := b.id, title := b.title, author := b.author,
        similarity_score := 1/2, reason := "Popular book" }
  else
    (sortDescBy (fun r => r.similarity_score)
      (candidateRecs reading_history books)).take limit

/-- Embedding of `OverduePrediction` (src/backend/server.py lines 134-139). -/
structure OverduePrediction where
  borrow_id : Nat
  user_id : Nat
  book_title : String
  probability : ℚ
  risk_level : String
deriving DecidableEq

/-- The user's total number of borrow records (src/backend/server.py
line 590). -/
def user_total_borrows (borrows : List Loan) (uid : Nat) : Nat :=
  borrows.countP fun l => l.user_id == uid

/-- Result of matching a stored `returned_at` value against the filter
clause `returned_at: {"$gt": "$due_date"}` of src/backend/server.py
line 594.  In a plain find/count filter the operand `"$due_date"` is the
literal string, not a field reference, and MQL comparison operators
type-bracket: a `$gt` with a string operand matches only string values.
`returned_at` is always stored as a BSON Date or Null, never a string, so
the clause matches no document whatever the value. -/
def returned_at_gt_string (_ : Option Int) : Bool := false

/-- Embedding of the `user_overdue_count` query of src/backend/server.py
lines 591-595: the filter is `status ∈ {overdue, returned}` together
with the `returned_at`-vs-string comparison `returned_at_gt_string`, which
never matches — so the program's count is always 0. -/
def user_overdue_count (borrows : List Loan) (uid : Nat) : Nat :=
  borrows.countP fun l =>
    l.user_id == uid && (decide (l.status = .overdue) || decide (l.status = .returned)) &&
      returned_at_gt_string l.returned_at

/-- Modelled from the spec: the numerator the spec prescribes for
`overdue_rate` — the user's historical loans that were ever `overdue` or were
returned after their due date (a loan that passed through `overdue` and was
then returned has `returned_at > due_date`). -/
def spec_user_overdue_count (borrows : List Loan) (uid : Nat) : Nat :=
  borrows.countP fun l =>
    l.user_id == uid &&
      (decide (l.status = .overdue) ||
        match l.returned_at with
        | some t => decide (l.due_date < t)
        | none => false)

/-- The user's past overdue rate (src/backend/server.py line 597). -/
def overdue_rate (borrows : List Loan) (uid : Nat) : ℚ :=
  (user_overdue_count borrows uid : ℚ) / (max (user_total_borrows borrows uid) 1 : ℚ)

/-- Days until the due date (src/backend/server.py line 587), floored like
Python's `timedelta.days`; negative when the loan is already past due. -/
def days_until_due (due now : Int) : Int := timedeltaDays (due - now)

/-- The banded probability of src/backend/server.py lines 599-607. -/
def overdue_probability (d : Int) (rate : ℚ) : ℚ :=
  if d ≤ 0 then 95/100
  else if d ≤ 2 then 7/10 + rate * (2/10)
  else if d ≤ 5 then 4/10 + rate * (3/10)
  else rate

/-- The risk label of src/backend/server.py lines 609-615. -/
def risk_level_of (p : ℚ) : String :=
  if 7/10 ≤ p then "High" else if 4/10 ≤ p then "Medium" else "Low"

/-- Embedding of the `get_overdue_predictions` endpoint
(src/backend/server.py lines 570-628): score every loan with status
`borrowed` whose user and book exist, and sort by descending probability.
`users` is the list of existing user ids. -/
def get_overdue_predictions (borrows : List Loan) (books : List Book)
    (users : List Nat) (now : Int) : List OverduePrediction :=
  let current := borrows.filter fun l => decide (l.status = .borrowed)
  let preds := current.filterMap fun l =>
    match books.find? (fun b => b.id == l.book_id) with
    | none => none
    | some book =>
      if users.contains l.user_id then
        let d := days_until_due l.due_date now
        let rate := overdue_rate borrows l.user_id
        let p := overdue_probability d rate
        some { borrow_id := l.id, user_id := l.user_id, book_title := book.title,
               probability := p, risk_level := risk_level_of p }
      else none
  sortDescBy (fun p => p.probability) preds

/-- The per-loan store effect of one sweep: a loan matching the sweep predicate
has its status set to `overdue`, every other loan is untouched. -/
def sweepUpd (now : Int) (l : Loan) : Loan :=
  if overduePred now l then setOverdue l else l

/-! Concrete fixtures used by counterexamples and witnesses. -/

/-- A catalog book with one copy, fully available, and no loans. -/
def c1Book : Book :=
  { id := 1, title := "A", author := "B", genre := "G", tags := [],
    total_copies := 1, available_copies := 1, created_at := 0 }

/-- A consistent state: one fully available single-copy book, no loans. -/
def c1State : LibState := { books := [c1Book], borrows := [] }

/-- A book update that only shrinks `total_copies` to `0`. -/
def c1Update : BookUpdate := { total_copies := some 0 }

/-- The state produced by applying `c1Update` to `c1State`. -/
def c1State2 : LibState :=
  { books := [{ c1Book with total_copies := 0 }], borrows := [] }

/-- A two-copy book with one copy out. -/
def c2Book : Book :=
  { id := 1, title := "A", author := "B", genre := "G", tags := [],
    total_copies := 2, available_copies := 1, created_at := 0 }

/-- An active loan of user 1 on book 1 whose status is `overdue`. -/
def c2Loan : Loan :=
  { id := 1, user_id := 1, book_id := 1, borrowed_at := 0, due_date := 86400,
    returned_at := none, status := .overdue, fine_amount := 0 }

/-- State in which user 1 holds an overdue loan on book 1. -/
def c2State : LibState := { books := [c2Book], borrows := [c2Loan] }

/-- The loan created by re-borrowing book 1 at time 100000. -/
def c2NewLoan : Loan :=
  { id := 2, user_id := 1, book_id := 1, borrowed_at := 100000, due_date := 1309600,
    returned_at := none, status := .borrowed, fine_amount := 0 }

/-- The state after the re-borrow: two active loans of user 1 on book 1. -/
def c2State2 : LibState :=
  { books := [{ c2Book with available_copies := 0 }], borrows := [c2Loan, c2NewLoan] }

/-- An active loan of user 1 on book 1 whose status is `borrowed`. -/
def c2bLoan : Loan :=
  { id := 1, user_id := 1, book_id := 1, borrowed_at := 0, due_date := 86400,
    returned_at := none, status := .borrowed, fine_amount := 0 }

/-- State in which user 1 holds a borrowed-status loan on book 1. -/
def c2bState : LibState := { books := [c2Book], borrows := [c2bLoan] }

/-- A historical loan of user 1, returned 100000 seconds AFTER its due date
(a genuinely late return). -/
def c3LoanA : Loan :=
  { id := 1, user_id := 1, book_id := 1, borrowed_at := -1000000, due_date := -500000,
    returned_at := some (-400000), status := .returned, fine_amount := 0 }

/-- A current loan of user 1, due in 10 days. -/
def c3LoanB : Loan :=
  { id := 2, user_id := 1, book_id := 2, borrowed_at := 0, due_date := 864000,
    returned_at := none, status := .borrowed, fine_amount := 0 }

/-- The book of the current loan `c3LoanB`. -/
def c3Book : Book :=
  { id := 2, title := "B", author := "B", genre := "G", tags := [],
    total_copies := 1, available_copies := 0, created_at := 0 }

/-- A borrowed-status loan of user 1 on book 1 due at time 1000000. -/
def c4Loan : Loan :=
  { id := 1, user_id := 1, book_id := 1, borrowed_at := 0, due_date := 1000000,
    returned_at := none, status := .borrowed, fine_amount := 0 }

/-- The same loan after the overdue sweep marked it `overdue`. -/
def c4OverdueLoan : Loan := { c4Loan with status := .overdue }

/-- State with the borrowed-status loan `c4Loan`. -/
def c4State : LibState := { books := [c2Book], borrows := [c4Loan] }

/-- State with the overdue-status loan `c4OverdueLoan`. -/
def c4StateOv : LibState := { books := [c2Book], borrows := [c4OverdueLoan] }

/-- The loan `c4Loan` as stored after a return at time 1000000 (fine 0). -/
def c4RetLoan0 : Loan :=
  { c4Loan with returned_at := some 1000000, status := .returned, fine_amount := 0 }

/-- The loan `c4Loan` as stored after a return at time 1086400 (fine 1). -/
def c4RetLoan1 : Loan :=
  { c4Loan with returned_at := some 1086400, status := .returned, fine_amount := 1 }

/-- The loan `c4OverdueLoan` as stored after a return at time 1864000 (fine 10). -/
def c4RetLoan10 : Loan :=
  { c4OverdueLoan with returned_at := some 1864000, status := .returned, fine_amount := 10 }

/-- State after returning `c4Loan` exactly on its due date (fine 0). -/
def c4Ret0State : LibState :=
  { books := [{ c2Book with available_copies := 2 }], borrows := [c4RetLoan0] }

/-- State after returning `c4Loan` exactly one day late (fine 1). -/
def c4Ret1State : LibState :=
  { books := [{ c2Book with available_copies := 2 }], borrows := [c4RetLoan1] }

/-- State after returning `c4OverdueLoan` ten days late (fine 10). -/
def c4Ret10State : LibState :=
  { books := [{ c2Book with available_copies := 2 }], borrows := [c4RetLoan10] }

/-- A loan that has already been returned. -/
def c5Loan : Loan :=
  { id := 1, user_id := 1, book_id := 1, borrowed_at := 0, due_date := 100,
    returned_at := some 150, status := .returned, fine_amount := 0 }

/-- State holding only the returned loan `c5Loan`. -/
def c5State : LibState := { books := [c2Book], borrows := [c5Loan] }

/-- The loan created by borrowing book 1 from `c1State` with
`borrow_days = -2` at time 1000: its due date is already in the past. -/
def c10Loan : Loan :=
  { id := 7, user_id := 1, book_id := 1, borrowed_at := 1000, due_date := -171800,
    returned_at := none, status := .borrowed, fine_amount := 0 }

/-- The state after the negative-duration borrow from `c1State`. -/
def c10State2 : LibState :=
  { books := [{ c1Book with available_copies := 0 }], borrows := [c10Loan] }

/-- The single book of the C7 example user's reading history:
genre "Sci-Fi", tags a and b. -/
def c7BookH : Book :=
  { id := 1, title := "H", author := "AH", genre := "Sci-Fi", tags := ["a", "b"],
    total_copies := 1, available_copies := 1, created_at := 0 }

/-- The C7 example catalog book X: genre "Sci-Fi", tags b and c. -/
def c7BookX : Book :=
  { id := 2, title := "X", author := "AX", genre := "Sci-Fi", tags := ["b", "c"],
    total_copies := 1, available_copies := 1, created_at := 1 }

/-- The C7 example catalog. -/
def c7Books : List Book := [c7BookH, c7BookX]

/-- A three-book catalog with distinct catalog times (for the
empty-history recommendation scenario). -/
def c8Books : List Book :=
  [{ id := 1, title := "P", author := "Q", genre := "G", tags := [],
     total_copies := 1, available_copies := 1, created_at := 10 },
   { id := 2, title := "R", author := "S", genre := "G", tags := [],
     total_copies := 1, available_copies := 1, created_at := 30 },
   { id := 3, title := "T", author := "U", genre := "G", tags := [],
     total_copies := 1, available_copies := 1, created_at := 20 }]

/-! Helper lemmas about `update_first`, the stable sort, and the sweep. -/

theorem update_first_eq_map_of_nodup (key : α → Nat) (f : α → α) (bid : Nat) :
    ∀ l : List α, (l.map key).Nodup →
      update_first (fun x => key x == bid) f l =
        l.map fun x => if key x == bid then f x else x
  | [], _ => rfl
  | x :: xs, h => by
    rw [List.map_cons, List.nodup_cons] at h
    by_cases hx : key x = bid
    · have hnot : ∀ y ∈ xs, key y ≠ bid := by
        intro y hy hkey
        exact h.1 (by rw [hx, ← hkey]; exact List.mem_map_of_mem key hy)
      have hrest : (xs.map fun y => if key y == bid then f y else y) = xs.map id :=
        List.map_congr_left fun y hy => by simp [hnot y hy]
      rw [List.map_cons, hrest, List.map_id]
      simp [update_first, hx]
    · have ih := update_first_eq_map_of_nodup key f bid xs h.2
      rw [List.map_cons]
      simp only [update_first, ih]
      rw [if_neg (by simpa using hx), if_neg (by simpa using hx)]

theorem key_inj_of_nodup (key : α → Nat) {l : List α} (h : (l.map key).Nodup)
    {a b : α} (ha : a ∈ l) (hb : b ∈ l) (hk : key a = key b) : a = b :=
  List.inj_on_of_nodup_map h ha hb hk

theorem sortDescBy_perm [LinearOrder β] (key : α → β) (l : List α) :
    List.Perm (sortDescBy key l) l :=
  @List.perm_insertionSort α (fun a b => key b ≤ key a)
    (fun a b => inferInstanceAs (Decidable (key b ≤ key a))) l

theorem sortDescBy_sorted [LinearOrder β] (key : α → β) (l : List α) :
    (sortDescBy key l).Pairwise fun a b => key b ≤ key a := by
  haveI : IsTotal α fun a b => key b ≤ key a := ⟨fun a b => le_total (key b) (key a)⟩
  haveI : IsTrans α fun a b => key b ≤ key a :=
    ⟨fun _ _ _ hab hbc => le_trans hbc hab⟩
  exact @List.sorted_insertionSort α (fun a b => key b ≤ key a)
    (fun a b => inferInstanceAs (Decidable (key b ≤ key a))) _ _ l

theorem sortDescBy_stable_filter [LinearOrder β] (key : α → β) (l : List α) (v : β) :
    (sortDescBy key l).filter (fun x => decide (key x = v)) =
      l.filter (fun x => decide (key x = v)) := by
  have hall : ∀ x ∈ l.filter (fun x => decide (key x = v)), key x = v := by
    intro x hx
    simpa using List.of_mem_filter hx
  have hpw : (l.filter (fun x => decide (key x = v))).Pairwise
      fun a b => key b ≤ key a := by
    apply List.pairwise_of_forall_mem_list
    intro a ha b hb
    rw [hall a ha, hall b hb]
  have hsub : List.Sublist (l.filter (fun x => decide (key x = v))) (sortDescBy key l) :=
    @List.sublist_insertionSort α (fun a b => key b ≤ key a)
      (fun a b => inferInstanceAs (Decidable (key b ≤ key a))) _ _ hpw
      (List.filter_sublist l)
  have hperm : List.Perm ((sortDescBy key l).filter (fun x => decide (key x = v)))
      (l.filter (fun x => decide (key x = v))) :=
    (sortDescBy_perm key l).filter _
  have hsub2 : List.Sublist (l.filter (fun x => decide (key x = v)))
      ((sortDescBy key l).filter (fun x => decide (key x = v))) := by
    have h2 := hsub.filter (fun x => decide (key x = v))
    simpa [List.filter_filter] using h2
  exact (hsub2.eq_of_length hperm.length_eq.symm).symm

theorem foldl_update_eq_map (now : Int) :
    ∀ (ms bs : List Loan), (bs.map Loan.id).Nodup →
      ms.foldl (fun acc b => update_first (fun l => l.id == b.id) setOverdue acc) bs =
        bs.map fun x => if (ms.map Loan.id).contains x.id then setOverdue x else x
  | [], bs, _ => by simp
  | m :: ms, bs, h => by
    rw [List.foldl_cons, update_first_eq_map_of_nodup Loan.id setOverdue m.id bs h]
    have hids : ((bs.map fun x => if x.id == m.id then setOverdue x else x).map Loan.id)
        = bs.map Loan.id := by
      rw [List.map_map]
      exact List.map_congr_left fun x hx => by
        by_cases h2 : x.id = m.id <;> simp [h2, setOverdue]
    have ih := foldl_update_eq_map now ms
      (bs.map fun x => if x.id == m.id then setOverdue x else x) (by rw [hids]; exact h)
    rw [ih, List.map_map]
    apply List.map_congr_left
    intro x hx
    by_cases h2 : x.id = m.id <;>
      simp [Function.comp, h2, setOverdue, List.contains_cons]

theorem get_overdue_books_borrows (s : LibState) (now : Int)
    (h : (s.borrows.map Loan.id).Nodup) :
    (get_overdue_books s now).2.borrows = s.borrows.map (sweepUpd now) := by
  have hfold := foldl_update_eq_map now (s.borrows.filter (overduePred now)) s.borrows h
  show (s.borrows.filter (overduePred now)).foldl _ s.borrows = _
  rw [hfold]
  apply List.map_congr_left
  intro x hx
  by_cases hp : overduePred now x
  · have hmem : (((s.borrows.filter (overduePred now)).map Loan.id).contains x.id) = true := by
      simp only [List.contains_eq_any_beq, List.any_eq_true]
      exact ⟨x.id, List.mem_map_of_mem Loan.id (List.mem_filter.mpr ⟨hx, hp⟩), by simp⟩
    rw [hmem]
    simp [sweepUpd, hp]
  · have hmem : (((s.borrows.filter (overduePred now)).map Loan.id).contains x.id) = false := by
      rw [Bool.eq_false_iff]
      intro hc
      simp only [List.contains_eq_any_beq, List.any_eq_true] at hc
      obtain ⟨i, hi, hbeq⟩ := hc
      obtain ⟨m, hm, rfl⟩ := List.mem_map.mp hi
      have hmmem := List.mem_filter.mp hm
      have hxm : x.id = m.id := by simpa using hbeq
      have : m = x := key_inj_of_nodup Loan.id h hmmem.1 hx hxm.symm
      exact hp (this ▸ hmmem.2)
    rw [hmem]
    simp [sweepUpd, hp]

theorem update_first_append (p : α → Bool) (f : α → α) :
    ∀ (as : List α) (a : α) (bs : List α), (∀ x ∈ as, p x = false) → p a = true →
      update_first p f (as ++ a :: bs) = as ++ f a :: bs
  | [], a, bs, _, hpa => by simp [update_first, hpa]
  | x :: as, a, bs, hprev, hpa => by
    have hx := hprev x (List.mem_cons_self x as)
    simp only [List.cons_append, update_first, hx, Bool.false_eq_true, if_false,
      List.cons.injEq, true_and]
    exact update_first_append p f as a bs (fun y hy => hprev y (List.mem_cons_of_mem x hy)) hpa

theorem borrow_preserves (s : LibState)
    (hinv : availabilityInvariant s)
    (hbooks : (s.books.map Book.id).Nodup) :
    ∀ uid bid days now nid loan s2,
      borrow_book s uid bid days now nid = .ok (loan, s2) → availabilityInvariant s2 := by
  intro uid bid days now nid loan s2 h
  simp only [borrow_book] at h
  split at h
  · exact absurd h (by simp)
  · rename_i book hfind
    split at h
    · exact absurd h (by simp)
    · split at h
      · exact absurd h (by simp)
      · rename_i havail hdup
        rw [Except.ok.injEq, Prod.mk.injEq] at h
        obtain ⟨hloan, hs2⟩ := h
        subst hs2
        intro b2 hb2
        rw [update_first_eq_map_of_nodup Book.id _ bid s.books hbooks] at hb2
        obtain ⟨b, hb, rfl⟩ := List.mem_map.mp hb2
        have hbookmem : book ∈ s.books := List.mem_of_find?_eq_some hfind
        have hbookid : book.id = bid := by simpa using List.find?_some hfind
        obtain ⟨h0, hle, heq⟩ := hinv b hb
        by_cases hid : b.id = bid
        · have hbb : book = b :=
            key_inj_of_nodup Book.id hbooks hbookmem hb (by rw [hbookid, hid])
          have hpos : 0 < b.available_copies := by rw [← hbb]; omega
          have hcnt : ∀ L : Loan, L.book_id = bid → L.status = .borrowed →
              ∀ tl, activeLoanCount (tl ++ [L]) b.id = activeLoanCount tl b.id + 1 := by
            intro L hLb hLs tl
            simp [activeLoanCount, List.countP_append, List.countP_cons, hLb, hLs, hid]
          have hcond : (b.id == bid) = true := beq_iff_eq.mpr hid
          simp only [hcond, if_true]
          refine ⟨by show 0 ≤ b.available_copies - 1; omega,
                  by show b.available_copies - 1 ≤ b.total_copies; omega, ?_⟩
          show b.available_copies - 1 = b.total_copies - _
          rw [hcnt _ rfl rfl s.borrows]
          push_cast
          omega
        · have hcond : (b.id == bid) = false := by
            rw [beq_eq_false_iff_ne]; exact hid
          have hne2 : (bid == b.id) = false := by
            rw [beq_eq_false_iff_ne]; exact Ne.symm hid
          have hcnt : activeLoanCount (s.borrows ++
              [{ id := nid, user_id := uid, book_id := bid, borrowed_at := now,
                 due_date := now + days * 86400, returned_at := none,
                 status := .borrowed, fine_amount := 0 }]) b.id =
              activeLoanCount s.borrows b.id := by
            simp [activeLoanCount, List.countP_append, List.countP_cons, hne2]
          simp only [hcond, Bool.false_eq_true, if_false]
          exact ⟨h0, hle, by rw [hcnt]; exact heq⟩

theorem return_preserves (s : LibState)
    (hinv : availabilityInvariant s)
    (hbooks : (s.books.map Book.id).Nodup) :
    ∀ borrow_id actor lib now fine s2,
      return_book s borrow_id actor lib now = .ok (fine, s2) → availabilityInvariant s2 := by
  intro borrow_id actor lib now fine s2 h
  simp only [return_book] at h
  split at h
  · exact absurd h (by simp)
  · rename_i br hfind
    split at h
    · exact absurd h (by simp)
    · split at h
      · exact absurd h (by simp)
      · rename_i hauth hret
        rw [Except.ok.injEq, Prod.mk.injEq] at h
        obtain ⟨hfine, hs2⟩ := h
        subst hs2
        obtain ⟨hpbr, as, bs, hl, hprev⟩ := List.find?_eq_some.mp hfind
        have hactive : (decide (br.status = LoanStatus.borrowed) ||
            decide (br.status = LoanStatus.overdue)) = true := by
          cases hst : br.status <;> simp_all
        have hupd : update_first (fun l => l.id == borrow_id)
            (fun l => { l with returned_at := some now, status := .returned,
                               fine_amount := if br.due_date < now
                                 then (timedeltaDays (now - br.due_date) : ℚ) * 1 else 0 })
            s.borrows =
            as ++ ({ br with returned_at := some now, status := .returned,
                             fine_amount := if br.due_date < now
                               then (timedeltaDays (now - br.due_date) : ℚ) * 1 else 0 } :: bs) := by
          rw [hl]
          exact update_first_append _ _ as br bs (fun x hx => by simpa using hprev x hx) hpbr
        intro b2 hb2
        simp only [hupd] at hb2 ⊢
        rw [update_first_eq_map_of_nodup Book.id _ br.book_id s.books hbooks] at hb2
        obtain ⟨b, hb, rfl⟩ := List.mem_map.mp hb2
        obtain ⟨h0, hle, heq⟩ := hinv b hb
        have hcount_new : activeLoanCount
            (as ++ ({ br with returned_at := some now, status := .returned,
                              fine_amount := if br.due_date < now
                                then (timedeltaDays (now - br.due_date) : ℚ) * 1 else 0 } :: bs))
            b.id = activeLoanCount as b.id + activeLoanCount bs b.id := by
          simp [activeLoanCount, List.countP_append, List.countP_cons]
        by_cases hbid : br.book_id = b.id
        · have hcount_old : activeLoanCount s.borrows b.id =
              activeLoanCount as b.id + activeLoanCount bs b.id + 1 := by
            rw [hl]
            simp [activeLoanCount, List.countP_append, List.countP_cons, hactive, hbid]
            omega
          have hc : (activeLoanCount s.borrows b.id : ℤ) =
              (activeLoanCount as b.id : ℤ) + (activeLoanCount bs b.id : ℤ) + 1 := by
            exact_mod_cast hcount_old
          have hcond : (b.id == br.book_id) = true := beq_iff_eq.mpr hbid.symm
          simp only [hcond, if_true]
          refine ⟨by show 0 ≤ b.available_copies + 1; omega,
                  by show b.available_copies + 1 ≤ b.total_copies; omega, ?_⟩
          show b.available_copies + 1 = b.total_copies - _
          rw [hcount_new]
          push_cast
          omega
        · have hcount_old : activeLoanCount s.borrows b.id =
              activeLoanCount as b.id + activeLoanCount bs b.id := by
            rw [hl]
            have hne : (br.book_id == b.id) = false := by
              rw [beq_eq_false_iff_ne]; exact hbid
            simp [activeLoanCount, List.countP_append, List.countP_cons, hne]
          have hcond : (b.id == br.book_id) = false := by
            rw [beq_eq_false_iff_ne]; exact fun hh => hbid hh.symm
          simp only [hcond, Bool.false_eq_true, if_false]
          refine ⟨h0, hle, ?_⟩
          rw [hcount_new, ← hcount_old]
          exact heq

theorem sweep_preserves (s : LibState) (hinv : availabilityInvariant s)
    (hloans : (s.borrows.map Loan.id).Nodup) (now : Int) :
    availabilityInvariant (get_overdue_books s now).2 := by
  intro b hb
  have hbooks_eq : (get_overdue_books s now).2.books = s.books := rfl
  rw [hbooks_eq] at hb
  obtain ⟨h0, hle, heq⟩ := hinv b hb
  refine ⟨h0, hle, ?_⟩
  show b.available_copies = b.total_copies -
    (activeLoanCount (get_overdue_books s now).2.borrows b.id : ℤ)
  rw [get_overdue_books_borrows s now hloans]
  have hcnt : activeLoanCount (s.borrows.map (sweepUpd now)) b.id =
      activeLoanCount s.borrows b.id := by
    unfold activeLoanCount
    rw [List.countP_map]
    apply List.countP_congr
    intro l hl
    by_cases hp : overduePred now l
    · have hst : l.status = .borrowed := by
        have h2 := hp
        unfold overduePred at h2
        simp only [Bool.and_eq_true, decide_eq_true_eq] at h2
        exact h2.1
      simp [Function.comp, sweepUpd, hp, setOverdue, hst]
    · simp [Function.comp, sweepUpd, hp]
  rw [hcnt]
  exact heq

theorem update_preserves (s : LibState) (hinv : availabilityInvariant s)
    (hbooks : (s.books.map Book.id).Nodup) :
    ∀ bid u s2, u.total_copies = none → update_book s bid u = .ok s2 →
      availabilityInvariant s2 := by
  intro bid u s2 htc h
  simp only [update_book] at h
  split at h
  · exact absurd h (by simp)
  · rw [Except.ok.injEq] at h
    subst h
    intro b2 hb2
    rw [update_first_eq_map_of_nodup Book.id _ bid s.books hbooks] at hb2
    obtain ⟨b, hb, rfl⟩ := List.mem_map.mp hb2
    obtain ⟨h0, hle, heq⟩ := hinv b hb
    by_cases hid : b.id = bid
    · have hcond : (b.id == bid) = true := beq_iff_eq.mpr hid
      simp only [hcond, if_true]
      refine ⟨?_, ?_, ?_⟩ <;>
        simp only [applyBookUpdate, htc, Option.getD_none] <;>
        [exact h0; exact hle; exact heq]
    · have hcond : (b.id == bid) = false := by
        rw [beq_eq_false_iff_ne]; exact hid
      simp only [hcond, Bool.false_eq_true, if_false]
      exact ⟨h0, hle, heq⟩

/-- C1 (amended): starting from any state satisfying the availability
invariant, with unique book ids and unique loan ids, the borrow, return and
overdue-sweep operations preserve `0 ≤ available_copies ≤ total_copies` and
`available_copies = total_copies − |active loans|`; a book update preserves
the invariant when it does not change `total_copies`.  (The original claim
also asserted preservation for updates that change `total_copies`; the
counterexample refutes that.) -/
theorem C1_invariant_preservation (s : LibState)
    (hinv : availabilityInvariant s)
    (hbooks : (s.books.map Book.id).Nodup)
    (hloans : (s.borrows.map Loan.id).Nodup) :
    (∀ uid bid days now nid loan s2,
       borrow_book s uid bid days now nid = .ok (loan, s2) → availabilityInvariant s2) ∧
    (∀ borrow_id actor lib now fine s2,
       return_book s borrow_id actor lib now = .ok (fine, s2) → availabilityInvariant s2) ∧
    (∀ now, availabilityInvariant (get_overdue_books s now).2) ∧
    (∀ bid u s2, u.total_copies = none → update_book s bid u = .ok s2 →
       availabilityInvariant s2) :=
  ⟨borrow_preserves s hinv hbooks, return_preserves s hinv hbooks,
   sweep_preserves s hinv hloans, update_preserves s hinv hbooks⟩

/-- C1 counterexample: in a consistent state (one book, `total_copies =
available_copies = 1`, no loans) the `update_book` endpoint accepts
`total_copies := 0` and leaves `available_copies = 1`, breaking both
`available_copies ≤ total_copies` and the availability equation — so the
claim that every book update preserves the invariant is false. -/
theorem C1_update_book_counterexample :
    availabilityInvariant c1State ∧
    update_book c1State 1 c1Update = .ok c1State2 ∧
    ¬ availabilityInvariant c1State2 :=
  ⟨by unfold availabilityInvariant; decide, rfl, by unfold availabilityInvariant; decide⟩

/-- C1 witness: the preservation theorem applied to the concrete consistent
state `c1State` (here through its sweep component). -/
theorem C1_witness :
    availabilityInvariant c1State ∧ availabilityInvariant (get_overdue_books c1State 5).2 :=
  ⟨by unfold availabilityInvariant; decide,
   (C1_invariant_preservation c1State (by unfold availabilityInvariant; decide)
     (by decide) (by decide)).2.2.1 5⟩

/-- C2 (amended): the borrow duplicate check only matches loans with status
exactly `borrowed`: when the book exists and has copies available, a borrow
fails with `AlreadyBorrowed` iff the user holds a borrowed-status loan on the
book, and a successful borrow implies no borrowed-status loan existed and
appends exactly one new borrowed-status loan.  An `overdue` loan does not
block re-borrowing (see the counterexample), so the uniqueness guarantee
covers borrowed-status loans only, not all active loans. -/
theorem C2_already_borrowed (s : LibState) (uid bid : Nat) :
    (∀ days now nid book, s.books.find? (fun b => b.id == bid) = some book →
       0 < book.available_copies →
       (∃ l ∈ s.borrows, l.user_id = uid ∧ l.book_id = bid ∧ l.status = .borrowed) →
       borrow_book s uid bid days now nid = .error .alreadyBorrowed) ∧
    (∀ days now nid loan s2, borrow_book s uid bid days now nid = .ok (loan, s2) →
       (∀ l ∈ s.borrows, ¬(l.user_id = uid ∧ l.book_id = bid ∧ l.status = .borrowed)) ∧
       s2.borrows = s.borrows ++ [loan] ∧ loan.user_id = uid ∧ loan.book_id = bid ∧
       loan.status = .borrowed) := by
  constructor
  · intro days now nid book hfind hpos hex
    simp only [borrow_book, hfind]
    rw [if_neg (by omega), if_pos]
    rw [List.find?_isSome]
    obtain ⟨l, hl, h1, h2, h3⟩ := hex
    exact ⟨l, hl, by simp [h1, h2, h3]⟩
  · intro days now nid loan s2 h
    simp only [borrow_book] at h
    split at h
    · exact absurd h (by simp)
    · split at h
      · exact absurd h (by simp)
      · split at h
        · exact absurd h (by simp)
        · rename_i hdup
          rw [Except.ok.injEq, Prod.mk.injEq] at h
          obtain ⟨hloan, hs2⟩ := h
          subst hs2
          refine ⟨?_, by rw [← hloan], by rw [← hloan], by rw [← hloan], by rw [← hloan]⟩
          intro l hl ⟨h1, h2, h3⟩
          have hnone := Option.not_isSome_iff_eq_none.mp hdup
          rw [List.find?_eq_none] at hnone
          exact absurd (by simp [h1, h2, h3]) (hnone l hl)

/-- C2 counterexample: user 1 already holds an active (`overdue`) loan on
book 1, yet a borrow call by user 1 for book 1 succeeds and creates a second
active loan, leaving two active loans for the (user 1, book 1) pair — the
claim as stated (AlreadyBorrowed for any active loan, at most one active loan
per pair) is false. -/
theorem C2_counterexample :
    c2State.borrows = [c2Loan] ∧ c2Loan.user_id = 1 ∧ c2Loan.book_id = 1 ∧
    c2Loan.status = .overdue ∧
    borrow_book c2State 1 1 14 100000 2 = .ok (c2NewLoan, c2State2) ∧
    activePairCount c2State2.borrows 1 1 = 2 :=
  ⟨rfl, rfl, rfl, rfl, rfl, by decide⟩

/-- C2 witness: with a borrowed-status loan of user 1 on book 1 in the store,
the borrow call is rejected with `AlreadyBorrowed`. -/
theorem C2_witness :
    borrow_book c2bState 1 1 14 0 2 = .error .alreadyBorrowed :=
  (C2_already_borrowed c2bState 1 1).1 14 0 2 c2Book rfl (by decide)
    ⟨c2bLoan, List.mem_singleton.mpr rfl, rfl, rfl, rfl⟩

/-- C3 (code bug): the overdue-risk numerator is wrong in the code.  The
query clause compares `returned_at` with the literal string taken from the
`"$gt": "$due_date"` operand (find filters do not dereference fields), and
since MQL comparison operators type-bracket, a string operand matches no
Date and no Null — so the program's `user_overdue_count` is always 0 and
`overdue_rate` is always 0, not the late/overdue history rate that the
code's own variable name, its comment and the spec intend.  At the failing
input (user 1 with one loan returned 100000 s AFTER its due date, plus one
current loan due in 10 days) the code produces `overdue_rate = 0`,
probability `0`, risk `Low`, where the intended numerator is `1`, giving
rate `1/2`, probability `1/2`, risk `Medium`. -/
theorem C3_overdue_rate_code_bug :
    get_overdue_predictions [c3LoanA, c3LoanB] [c3Book] [1] 0 =
      [{ borrow_id := 2, user_id := 1, book_title := "B", probability := 0,
         risk_level := "Low" }] ∧
    user_overdue_count [c3LoanA, c3LoanB] 1 = 0 ∧
    spec_user_overdue_count [c3LoanA, c3LoanB] 1 = 1 ∧
    ((spec_user_overdue_count [c3LoanA, c3LoanB] 1 : ℚ) /
      (max (user_total_borrows [c3LoanA, c3LoanB] 1) 1 : ℚ)) = 1/2 ∧
    overdue_probability (days_until_due c3LoanB.due_date 0) (1/2) = 1/2 ∧
    risk_level_of (1/2) = "Medium" := by
  refine ⟨?_, by decide, by decide, ?_, ?_, ?_⟩
  · norm_num [get_overdue_predictions, overdue_rate, user_overdue_count,
      returned_at_gt_string, user_total_borrows, days_until_due, timedeltaDays,
      overdue_probability, risk_level_of, sortDescBy, List.insertionSort,
      List.orderedInsert, c3LoanA, c3LoanB, c3Book, List.filterMap_cons,
      List.filter_cons, List.countP_cons, Int.fdiv]
  · have h1 : spec_user_overdue_count [c3LoanA, c3LoanB] 1 = 1 := by decide
    have h2 : user_total_borrows [c3LoanA, c3LoanB] 1 = 2 := by decide
    rw [h1, h2]
    norm_num
  · have hd : days_until_due c3LoanB.due_date 0 = 10 := by decide
    rw [hd]
    norm_num [overdue_probability]
  · norm_num [risk_level_of]

/-- C4 (confirmed): returning a loan that is not already returned succeeds
with `fine_amount = max(0, whole days by which the return time exceeds
`due_at`) × 1` — computed from the timestamps alone, for `borrowed` and
`overdue` loans alike; in particular returning 0 days late fines 0, exactly
1 day late fines 1 (the per-day rate), 10 days late fines 10. -/
theorem C4_fine_computation :
    (∀ s borrow_id actor lib now br,
       s.borrows.find? (fun l => l.id == borrow_id) = some br →
       br.status ≠ .returned →
       (br.user_id = actor ∨ lib = true) →
       ∃ s2, return_book s borrow_id actor lib now =
         .ok (((max 0 (timedeltaDays (now - br.due_date)) : ℤ) : ℚ) * 1, s2)) ∧
    return_book c4State 1 1 false 1000000 = .ok (0, c4Ret0State) ∧
    return_book c4State 1 1 false 1086400 = .ok (1, c4Ret1State) ∧
    return_book c4StateOv 1 1 false 1864000 = .ok (10, c4Ret10State) := by
  refine ⟨?_, ?_, ?_, ?_⟩
  · intro s borrow_id actor lib now br hfind hret hauth
    have hauth2 : ¬(br.user_id ≠ actor ∧ lib = false) := by
      rintro ⟨hne, hlib⟩
      rcases hauth with h | h
      · exact hne h
      · rw [h] at hlib; exact absurd hlib (by simp)
    have hfe : (if br.due_date < now then (timedeltaDays (now - br.due_date) : ℚ) * 1 else 0)
        = ((max 0 (timedeltaDays (now - br.due_date)) : ℤ) : ℚ) * 1 := by
      by_cases hlate : br.due_date < now
      · rw [if_pos hlate]
        have hnn : 0 ≤ timedeltaDays (now - br.due_date) :=
          Int.fdiv_nonneg (by omega) (by omega)
        rw [max_eq_right hnn]
      · rw [if_neg hlate]
        have hle : timedeltaDays (now - br.due_date) ≤ 0 := by
          unfold timedeltaDays
          rw [Int.fdiv_eq_ediv _ (by omega)]
          calc (now - br.due_date) / 86400 ≤ 0 / 86400 :=
                Int.ediv_le_ediv (by omega) (by omega)
            _ = 0 := by omega
        rw [max_eq_left hle]
        norm_num
    simp only [return_book, hfind]
    rw [if_neg hauth2, if_neg hret, hfe]
    exact ⟨_, rfl⟩
  · norm_num [return_book, c4State, c4Ret0State, c4RetLoan0, c4Loan, c2Book,
      timedeltaDays, update_first,
      show LoanStatus.borrowed ≠ LoanStatus.returned from by decide]
  · norm_num [return_book, c4State, c4Ret1State, c4RetLoan1, c4Loan, c2Book,
      timedeltaDays, update_first, show Int.fdiv 86400 86400 = 1 from by decide,
      show LoanStatus.borrowed ≠ LoanStatus.returned from by decide]
  · norm_num [return_book, c4StateOv, c4Ret10State, c4RetLoan10, c4OverdueLoan, c4Loan,
      c2Book, timedeltaDays, update_first, show Int.fdiv 864000 86400 = 10 from by decide,
      show LoanStatus.overdue ≠ LoanStatus.returned from by decide]

/-- C4 witness: the fine formula applied to the concrete loan returned
exactly one day late. -/
theorem C4_witness :
    ∃ s2, return_book c4State 1 1 false 1086400 =
      .ok (((max 0 (timedeltaDays (1086400 - c4Loan.due_date)) : ℤ) : ℚ) * 1, s2) :=
  C4_fine_computation.1 c4State 1 1 false 1086400 c4Loan rfl (by decide) (Or.inl rfl)

/-- C5 (confirmed): `returned` is terminal.  A second (authorized) return
call on a returned loan fails with `AlreadyReturned` (the error branch
carries no state, so nothing is modified), and the overdue sweep neither
selects a returned loan for its report nor modifies its stored record. -/
theorem C5_returned_terminal :
    (∀ s borrow_id actor lib now br,
       s.borrows.find? (fun l => l.id == borrow_id) = some br →
       (br.user_id = actor ∨ lib = true) →
       br.status = .returned →
       return_book s borrow_id actor lib now = .error .alreadyReturned) ∧
    (∀ s now, (s.borrows.map Loan.id).Nodup →
       ∀ l ∈ s.borrows, l.status = .returned →
         (∀ e ∈ (get_overdue_books s now).1, e.loan ≠ l) ∧
         l ∈ (get_overdue_books s now).2.borrows) := by
  constructor
  · intro s borrow_id actor lib now br hfind hauth hret
    have hauth2 : ¬(br.user_id ≠ actor ∧ lib = false) := by
      rintro ⟨hne, hlib⟩
      rcases hauth with h | h
      · exact hne h
      · rw [h] at hlib; exact absurd hlib (by simp)
    simp only [return_book, hfind]
    rw [if_neg hauth2, if_pos hret]
  · intro s now hnodup l hl hret
    constructor
    · intro e he hel
      obtain ⟨b, hb, rfl⟩ := List.mem_map.mp he
      have hpred := (List.mem_filter.mp hb).2
      have hst : b.status = .borrowed := by
        unfold overduePred at hpred
        simp only [Bool.and_eq_true, decide_eq_true_eq] at hpred
        exact hpred.1
      have hbl : b = l := hel
      rw [hbl, hret] at hst
      exact absurd hst (by decide)
    · rw [get_overdue_books_borrows s now hnodup]
      have hupd : sweepUpd now l = l := by
        unfold sweepUpd overduePred
        rw [hret]
        simp
      have hm := List.mem_map_of_mem (sweepUpd now) hl
      rw [hupd] at hm
      exact hm

/-- C5 witness: in the concrete state holding only the returned loan
`c5Loan`, a repeated return is rejected with `AlreadyReturned` and the sweep
keeps the record unchanged in the store. -/
theorem C5_witness :
    return_book c5State 1 1 false 200 = .error .alreadyReturned ∧
    c5Loan ∈ (get_overdue_books c5State 200).2.borrows :=
  ⟨C5_returned_terminal.1 c5State 1 1 false 200 c5Loan rfl (Or.inl rfl) rfl,
   (C5_returned_terminal.2 c5State 200 (by decide) c5Loan
     (List.mem_singleton.mpr rfl) rfl).2⟩

/-- C6 (confirmed): the overdue sweep reports exactly the loans with status
`borrowed` and `due_date < now`, transitions exactly those stored loans to
`overdue` (all others are untouched), and is idempotent — an immediately
repeated sweep selects nothing and leaves the store unchanged. -/
theorem C6_sweep_exact_idempotent (s : LibState) (now : Int)
    (hnodup : (s.borrows.map Loan.id).Nodup) :
    ((get_overdue_books s now).1.map (fun e => e.loan) =
       s.borrows.filter (overduePred now)) ∧
    ((get_overdue_books s now).2.borrows = s.borrows.map (sweepUpd now)) ∧
    (∀ l, sweepUpd now l = if overduePred now l then { l with status := .overdue } else l) ∧
    (get_overdue_books (get_overdue_books s now).2 now = ([], (get_overdue_books s now).2)) := by
  refine ⟨?_, get_overdue_books_borrows s now hnodup, fun l => rfl, ?_⟩
  · show ((s.borrows.filter (overduePred now)).map _).map _ = _
    rw [List.map_map]
    exact List.map_congr_left (fun b _ => rfl) |>.trans (List.map_id _)
  · have hborrows := get_overdue_books_borrows s now hnodup
    have hmat : (get_overdue_books s now).2.borrows.filter (overduePred now) = [] := by
      rw [hborrows]
      rw [List.filter_eq_nil_iff]
      intro l hl
      obtain ⟨x, hx, rfl⟩ := List.mem_map.mp hl
      by_cases hp : overduePred now x
      · have hst : (sweepUpd now x).status = .overdue := by
          unfold sweepUpd
          rw [if_pos hp]
          rfl
        unfold overduePred
        rw [hst]
        simp
      · have hsx : sweepUpd now x = x := by unfold sweepUpd; rw [if_neg hp]
        rw [hsx]
        exact hp
    conv_lhs => rw [get_overdue_books, hmat]
    rfl

/-- C6 witness: the sweep theorem applied to the concrete state `c4State`
(one borrowed loan, ten days past due at time 2000000). -/
theorem C6_witness :
    (get_overdue_books c4State 2000000).1.map (fun e => e.loan) = [c4Loan] ∧
    get_overdue_books (get_overdue_books c4State 2000000).2 2000000 =
      ([], (get_overdue_books c4State 2000000).2) :=
  ⟨((C6_sweep_exact_idempotent c4State 2000000 (by decide)).1).trans rfl,
   (C6_sweep_exact_idempotent c4State 2000000 (by decide)).2.2.2⟩

/-- C9 (confirmed): the sweep's store mutation touches only the `status`
field — id, user, book, timestamps, `returned_at` and in particular
`fine_amount` are all unchanged (no fine is assigned at sweep time) — the
catalog is untouched, and every reported entry is the pre-transition
snapshot: its `loan.status` still reads `borrowed` although the stored
record was set to `overdue`, and the fine appears only as the response-level
`calculated_fine`. -/
theorem C9_sweep_frame (s : LibState) (now : Int)
    (hnodup : (s.borrows.map Loan.id).Nodup) :
    ((get_overdue_books s now).2.books = s.books) ∧
    ((get_overdue_books s now).2.borrows = s.borrows.map (sweepUpd now)) ∧
    (∀ l, (sweepUpd now l).id = l.id ∧ (sweepUpd now l).user_id = l.user_id ∧
       (sweepUpd now l).book_id = l.book_id ∧
       (sweepUpd now l).borrowed_at = l.borrowed_at ∧
       (sweepUpd now l).due_date = l.due_date ∧
       (sweepUpd now l).returned_at = l.returned_at ∧
       (sweepUpd now l).fine_amount = l.fine_amount) ∧
    (∀ e ∈ (get_overdue_books s now).1,
       e.loan ∈ s.borrows ∧ e.loan.status = .borrowed ∧
       sweepUpd now e.loan = setOverdue e.loan ∧
       e.calculated_fine = (timedeltaDays (now - e.loan.due_date) : ℚ) * 1) := by
  refine ⟨rfl, get_overdue_books_borrows s now hnodup, ?_, ?_⟩
  · intro l
    by_cases hp : overduePred now l <;>
      simp [sweepUpd, setOverdue, hp]
  · intro e he
    obtain ⟨b, hb, rfl⟩ := List.mem_map.mp he
    have hmf := List.mem_filter.mp hb
    have hst : b.status = .borrowed := by
      have hpred := hmf.2
      unfold overduePred at hpred
      simp only [Bool.and_eq_true, decide_eq_true_eq] at hpred
      exact hpred.1
    exact ⟨hmf.1, hst, by unfold sweepUpd; rw [if_pos hmf.2], rfl⟩

/-- C9 witness: the frame theorem applied to the concrete state `c4State` at
time 2000000. -/
theorem C9_witness :
    (get_overdue_books c4State 2000000).2.books = c4State.books ∧
    (sweepUpd 2000000 c4Loan).fine_amount = c4Loan.fine_amount :=
  ⟨(C9_sweep_frame c4State 2000000 (by decide)).1,
   ((C9_sweep_frame c4State 2000000 (by decide)).2.2.1 c4Loan).2.2.2.2.2.2⟩

theorem get_overdue_books_entries (s : LibState) (now : Int) :
    (get_overdue_books s now).1.map (fun e => e.loan) =
      s.borrows.filter (overduePred now) := by
  show ((s.borrows.filter (overduePred now)).map _).map _ = _
  rw [List.map_map]
  exact List.map_congr_left (fun b _ => rfl) |>.trans (List.map_id _)

/-- C10 (confirmed): `borrow_days` is accepted without validation (its
declared default is 14): for any integer `borrow_days`, a borrow that passes
the existence, availability and duplicate checks succeeds, and the created
loan has `due_date = now + borrow_days · 86400`; with a negative
`borrow_days` the due date is already in the past and the new loan is
selected by an overdue sweep run at the very same instant. -/
theorem C10_borrow_days_unvalidated :
    (borrow_days_default = 14) ∧
    (∀ s uid bid (days now : ℤ) nid book,
       s.books.find? (fun b => b.id == bid) = some book →
       0 < book.available_copies →
       (s.borrows.find? (fun l => l.user_id == uid && l.book_id == bid &&
          decide (l.status = LoanStatus.borrowed))).isSome = false →
       (borrow_book s uid bid days now nid).isOk = true) ∧
    (∀ s uid bid (days now : ℤ) nid loan s2,
       borrow_book s uid bid days now nid = .ok (loan, s2) →
       loan.due_date = now + days * 86400 ∧ loan.status = .borrowed ∧
       loan.user_id = uid ∧ loan.book_id = bid ∧
       (days < 0 → loan.due_date < now ∧
         loan ∈ (get_overdue_books s2 now).1.map (fun e => e.loan))) := by
  refine ⟨rfl, ?_, ?_⟩
  · intro s uid bid days now nid book hfind hpos hdup
    simp only [borrow_book, hfind]
    rw [if_neg (by omega), if_neg (by simp [hdup])]
    rfl
  · intro s uid bid days now nid loan s2 h
    simp only [borrow_book] at h
    split at h
    · exact absurd h (by simp)
    · split at h
      · exact absurd h (by simp)
      · split at h
        · exact absurd h (by simp)
        · rw [Except.ok.injEq, Prod.mk.injEq] at h
          obtain ⟨hloan, hs2⟩ := h
          subst hs2
          subst hloan
          refine ⟨rfl, rfl, rfl, rfl, ?_⟩
          intro hneg
          have hlt : now + days * 86400 < now := by
            have := mul_neg_of_neg_of_pos hneg (show (0:ℤ) < 86400 by norm_num)
            omega
          refine ⟨hlt, ?_⟩
          rw [get_overdue_books_entries]
          apply List.mem_filter.mpr
          refine ⟨List.mem_append_right _ (List.mem_singleton.mpr rfl), ?_⟩
          unfold overduePred
          simp [hlt]

/-- C10 witness: borrowing with `borrow_days = -2` from the concrete state
`c1State` succeeds and the created loan is already past due and is picked up
by a sweep at the same time. -/
theorem C10_witness :
    (borrow_book c1State 1 1 (-2) 1000 7).isOk = true ∧
    c10Loan.due_date < 1000 ∧
    c10Loan ∈ (get_overdue_books c10State2 1000).1.map (fun e => e.loan) :=
  ⟨C10_borrow_days_unvalidated.2.1 c1State 1 1 (-2) 1000 7 c1Book rfl (by decide) rfl,
   (C10_borrow_days_unvalidated.2.2 c1State 1 1 (-2) 1000 7 c10Loan c10State2
     (by norm_num [borrow_book, c1State, c1Book, c10Loan, c10State2,
       update_first])).2.2.2.2 (by norm_num)⟩

/-- C8 (confirmed): with an empty reading history the recommendation
endpoint returns the `limit` most recently cataloged books (fewer when the
catalog is smaller): the catalog sorted by descending `created_at` (a
permutation of the catalog, sorted), truncated to `limit`, every entry
carrying `similarity_score = 0.5` and reason exactly "Popular book". -/
theorem C8_popular_recommendations :
    (∀ books limit,
       get_book_recommendations [] books limit =
         ((sortDescBy (fun b => b.created_at) books).take limit).map fun b =>
           { book_id := b.id, title := b.title, author := b.author,
             similarity_score := 1/2, reason := "Popular book" }) ∧
    (∀ books : List Book, List.Perm (sortDescBy (fun b => b.created_at) books) books) ∧
    (∀ books : List Book, (sortDescBy (fun b => b.created_at) books).Pairwise
       fun a b => b.created_at ≤ a.created_at) ∧
    (∀ books limit,
       (get_book_recommendations [] books limit).length = min limit books.length) ∧
    (∀ books limit r, r ∈ get_book_recommendations [] books limit →
       r.similarity_score = 1/2 ∧ r.reason = "Popular book") := by
  refine ⟨fun books limit => rfl, fun books => sortDescBy_perm _ books,
    fun books => sortDescBy_sorted _ books, ?_, ?_⟩
  · intro books limit
    show ((((sortDescBy (fun b => b.created_at) books).take limit).map _).length) = _
    rw [List.length_map, List.length_take, (sortDescBy_perm _ books).length_eq]
  · intro books limit r hr
    have hr2 : r ∈ ((sortDescBy (fun b => b.created_at) books).take limit).map fun b =>
        ({ book_id := b.id, title := b.title, author := b.author,
           similarity_score := 1/2, reason := "Popular book" } : BookRecommendation) := hr
    obtain ⟨b, _, rfl⟩ := List.mem_map.mp hr2
    exact ⟨rfl, rfl⟩

/-- C8 witness: the empty-history theorem at the concrete three-book catalog
with `limit = 2`. -/
theorem C8_witness :
    get_book_recommendations [] c8Books 2 =
      ((sortDescBy (fun b => b.created_at) c8Books).take 2).map (fun b =>
        { book_id := b.id, title := b.title, author := b.author,
          similarity_score := 1/2, reason := "Popular book" }) ∧
    (get_book_recommendations [] c8Books 2).length = min 2 3 :=
  ⟨C8_popular_recommendations.1 c8Books 2, C8_popular_recommendations.2.2.2.1 c8Books 2⟩

/-- C7 (confirmed): with a non-empty reading history the recommendation
endpoint scores every catalog book outside the history as
`0.5·[genre ∈ user_genres] + 0.2·|tags ∩ user_tags|`, keeps exactly the
positively scored ones, sorts them by descending score with the stable sort
(equal scores keep catalog order: filtering the sorted candidates at any
score value returns them in the original candidate order), and truncates to
`limit`; and at the Sci-Fi example the catalog book X scores
`0.5 + 0.2·1 = 0.7`. -/
theorem C7_content_recommendations :
    (∀ (reading_history : List Nat) (books : List Book) (limit : Nat),
       reading_history ≠ [] →
       (get_book_recommendations reading_history books limit =
          (sortDescBy (fun r => r.similarity_score)
            (candidateRecs reading_history books)).take limit) ∧
       (∀ r ∈ get_book_recommendations reading_history books limit, ∃ b ∈ books,
          (¬ reading_history.contains b.id = true) ∧ r.book_id = b.id ∧
          r.similarity_score = recScore reading_history books b ∧
          recScore reading_history books b =
            (if (userGenres reading_history books).contains b.genre then 1/2 else 0) +
              ((commonTags reading_history books b).length : ℚ) * (1/5) ∧
          r.similarity_score > 0) ∧
       ((get_book_recommendations reading_history books limit).Pairwise
          fun r r2 => r2.similarity_score ≤ r.similarity_score) ∧
       (∀ v : ℚ, (sortDescBy (fun r => r.similarity_score)
            (candidateRecs reading_history books)).filter
              (fun r => decide (r.similarity_score = v)) =
          (candidateRecs reading_history books).filter
            (fun r => decide (r.similarity_score = v))) ∧
       ((get_book_recommendations reading_history books limit).length ≤ limit)) ∧
    (get_book_recommendations [1] c7Books 5 =
       [{ book_id := 2, title := "X", author := "AX", similarity_score := 7/10,
          reason := "Similar genre: Sci-Fi; Common tags: b" }]) := by
  constructor
  · intro reading_history books limit hne
    have hshape : get_book_recommendations reading_history books limit =
        (sortDescBy (fun r => r.similarity_score)
          (candidateRecs reading_history books)).take limit := by
      cases reading_history with
      | nil => exact absurd rfl hne
      | cons a t => rfl
    refine ⟨hshape, ?_, ?_, fun v => sortDescBy_stable_filter _ _ v, ?_⟩
    · intro r hr
      rw [hshape] at hr
      have hr2 : r ∈ sortDescBy (fun r => r.similarity_score)
          (candidateRecs reading_history books) := List.take_subset _ _ hr
      have hr3 : r ∈ candidateRecs reading_history books :=
        (sortDescBy_perm _ _).mem_iff.mp hr2
      obtain ⟨b, hb, hf⟩ := List.mem_filterMap.mp hr3
      refine ⟨b, hb, ?_⟩
      dsimp only at hf
      split at hf
      · exact absurd hf (by simp)
      · rename_i hnotread
        split at hf
        · rename_i hpos
          rw [Option.some.injEq] at hf
          subst hf
          exact ⟨by simpa using hnotread, rfl, rfl, rfl, hpos⟩
        · exact absurd hf (by simp)
    · rw [hshape]
      exact ((sortDescBy_sorted (fun r => r.similarity_score)
        (candidateRecs reading_history books))).sublist (List.take_sublist _ _)
    · rw [hshape]
      exact List.length_take_le _ _
  · simp +decide only [get_book_recommendations, candidateRecs, userGenres, userTags,
      commonTags, recScore, sortDescBy, List.insertionSort, List.orderedInsert, c7Books,
      c7BookH, c7BookX, List.filterMap_cons, List.filter_cons, List.flatten,
      List.filter_nil, List.filterMap_nil, List.map_cons, List.map_nil, List.append_nil,
      List.take, show (["b","c"] : List String).dedup = ["b","c"] from by decide]
    norm_num
    decide

/-- C7 witness: the content-scoring theorem at the concrete Sci-Fi example
(history book 1, catalog `c7Books`, limit 5). -/
theorem C7_witness :
    (get_book_recommendations [1] c7Books 5).length ≤ 5 ∧
    ((get_book_recommendations [1] c7Books 5).Pairwise
      fun r r2 => r2.similarity_score ≤ r.similarity_score) :=
  ⟨(C7_content_recommendations.1 [1] c7Books 5 (by simp)).2.2.2.2,
   (C7_content_recommendations.1 [1] c7Books 5 (by simp)).2.2.1⟩
